import Mathlib

/-!
Verification of the `rosm_mbtiles` MBTiles codec library.

The development shallowly embeds the library's metadata codec
(`read_metadata` in `src/read.rs`, `write_metadata` in `src/write.rs`),
its common data model (`src/common.rs`), and the grid-data store
(`create_grid_tables`, `write_grid_data`, `read_grid_data`).

External collaborators (the `rosm_geo` geographic primitives, the
`serde_json` sidecar serializer, and Rust's `f64` display/parse) are
modelled as an abstract interface, following the design's statement that
they are consumed only through "serialize record to canonical text" /
"parse text into record" and opaque coordinate accessors/constructors.
-/

namespace RosmMbtiles

/-! ## Definitions -/

/-- The decimal digit character for a digit value `d < 10`. -/
def digitChar (d : Nat) : Char :=
  match d with
  | 0 => '0' | 1 => '1' | 2 => '2' | 3 => '3' | 4 => '4'
  | 5 => '5' | 6 => '6' | 7 => '7' | 8 => '8' | 9 => '9'
  | _ => '*'

/-- The digit value of a decimal digit character, by code point. -/
def charToDigit (c : Char) : Option Nat :=
  let n := c.toNat
  if 48 ≤ n ∧ n ≤ 57 then some (n - 48) else none

/-- Little-endian decimal digits of `n`, with explicit fuel so that the
definition unfolds by iota reduction. -/
def toDigitsRev (fuel n : Nat) : List Nat :=
  match fuel with
  | 0 => []
  | fuel + 1 => if n = 0 then [] else n % 10 :: toDigitsRev fuel (n / 10)

/-- Decimal rendering of a natural number (most significant digit first). -/
def natToString (n : Nat) : String :=
  if n = 0 then "0" else ⟨((toDigitsRev n n).map digitChar).reverse⟩

/-- Parse a list of characters as decimal digits (most significant first). -/
def parseDigits : List Char → Option (List Nat)
  | [] => some []
  | c :: cs =>
    match charToDigit c, parseDigits cs with
    | some d, some ds => some (d :: ds)
    | _, _ => none

/-- Model of Rust's `str::parse::<u32>`: a non-empty all-digit string whose
value fits in 32 bits. (Rust also admits a leading `+`, which no claim
touches and which `write_metadata` never emits.) -/
def parseU32 (s : String) : Option Nat :=
  if s.data = [] then none
  else
    match parseDigits s.data with
    | some ds =>
      let n := Nat.ofDigits 10 ds.reverse
      if n < 2 ^ 32 then some n else none
    | none => none

/-- Model of Rust's `str::parse::<f64>` specialised to the concrete numeric
model used in witnesses: unbounded decimal naturals. -/
def parseNat (s : String) : Option Nat :=
  if s.data = [] then none
  else
    match parseDigits s.data with
    | some ds => some (Nat.ofDigits 10 ds.reverse)
    | none => none

def splitCommaChars : List Char → List (List Char)
  | [] => [[]]
  | c :: rest =>
    if c = ',' then [] :: splitCommaChars rest
    else
      match splitCommaChars rest with
      | [] => [[c]]
      | p :: ps => (c :: p) :: ps

def splitComma (s : String) : List String :=
  (splitCommaChars s.data).map fun l => ⟨l⟩

structure ExternModel : Type 1 where
  F : Type
  Coord : Type
  Rect : Type
  Mvt : Type
  fmtF : F → String
  parseF : String → Option F
  from_degrees : F → F → Option Coord
  lon : Coord → F
  lat : Coord → F
  rect_new : Coord → Coord → Option Rect
  top_left : Rect → Coord
  bottom_right : Rect → Coord
  serializeMvt : Mvt → String
  parseMvt : String → Option Mvt

/-- `FileFormat` from `src/common.rs`. -/
inductive FileFormat (E : ExternModel) where
  | Pbf (mvt : E.Mvt)
  | Jpg
  | Png
  | Webp
  | Other (ietf_type : String)

/-- `impl Into<String> for FileFormat` from `src/common.rs`. -/
def FileFormat.intoString {E : ExternModel} : FileFormat E → String
  | .Pbf _ => "pbf"
  | .Jpg => "jpg"
  | .Png => "png"
  | .Webp => "webp"
  | .Other ietf_type => ietf_type

/-- `Type` from `src/common.rs` (named `Type'` because `Type` is reserved). -/
inductive Type' where
  | Overlay
  | BaseLayer

deriving DecidableEq

/-- `impl Into<&'static str> for Type` from `src/common.rs`. -/
def Type'.intoString : Type' → String
  | .Overlay => "overlay"
  | .BaseLayer => "baselayer"

/-- `impl TryFrom<&str> for Type` from `src/common.rs` (Option models `Result<_, ()>`). -/
def Type'.tryFrom (value : String) : Option Type' :=
  if value = "overlay" then some .Overlay
  else if value = "baselayer" then some .BaseLayer
  else none

/-- `HashMap::insert`: replace the value of an existing key, else add the entry. -/
def insertKV (l : List (String × String)) (k v : String) : List (String × String) :=
  match l with
  | [] => [(k, v)]
  | (k', v') :: rest => if k' = k then (k, v) :: rest else (k', v') :: insertKV rest k v

/-- `Metadata` from `src/common.rs`; the defaults are `Metadata::default()`
(`zoom_range` is modelled as the pair of the `RangeInclusive` endpoints,
`u32` values as `Nat`). -/
structure Metadata (E : ExternModel) where
  name : String := ""
  format : FileFormat E := .Other ""
  bounds : Option E.Rect := none
  center : Option (E.Coord × Nat) := none
  zoom_range : Option (Nat × Nat) := none
  attribution : Option String := none
  description : Option String := none
  type' : Option Type' := none
  version : Option Nat := none
  custom : List (String × String) := []

/-- The `"bounds"` arm of `read_metadata`: split on `,`, require exactly 4
fields, parse them as `(left, bottom, right, top)`, build the two corner
coordinates and the rectangle, dropping the value on any failure. -/
def readBounds (E : ExternModel) (value : String) : Option E.Rect :=
  let split := splitComma value
  if split.length = 4 then
    match E.parseF (split.getD 0 ""), E.parseF (split.getD 1 ""),
          E.parseF (split.getD 2 ""), E.parseF (split.getD 3 "") with
    | some left, some bottom, some right, some top =>
      match E.from_degrees left top, E.from_degrees right bottom with
      | some tl, some br =>
        match E.rect_new tl br with
        | some bbox => some bbox
        | none => none
      | _, _ => none
    | _, _, _, _ => none
  else none

/-- The `"center"` arm of `read_metadata`: split on `,`, require exactly 3
fields `(lon, lat, zoom_level)`, dropping the value on any failure. -/
def readCenter (E : ExternModel) (value : String) : Option (E.Coord × Nat) :=
  let split := splitComma value
  if split.length = 3 then
    match E.parseF (split.getD 0 ""), E.parseF (split.getD 1 ""),
          parseU32 (split.getD 2 "") with
    | some lon, some lat, some zoom_level =>
      match E.from_degrees lon lat with
      | some coord => some (coord, zoom_level)
      | none => none
    | _, _, _ => none
  else none

/-- The loop state of `read_metadata`: the partially filled record plus the
scratch slots `zoom_range`, `format_str` and `mvt_metadata_json`. -/
structure ReadState (E : ExternModel) where
  md : Metadata E
  zmin : Option Nat := none
  zmax : Option Nat := none
  format_str : String := ""
  mvt_metadata_json : String := ""

def initState (E : ExternModel) : ReadState E := { md := {} }

/-- One iteration of `read_metadata`'s row loop: dispatch on the row name. -/
def step (E : ExternModel) (st : ReadState E) (row : String × String) : ReadState E :=
  let name := row.1
  let value := row.2
  if name = "name" then { st with md.name := value }
  else if name = "format" then { st with format_str := value }
  else if name = "bounds" then
    { st with md.bounds :=
        match readBounds E value with
        | some bbox => some bbox
        | none => st.md.bounds }
  else if name = "center" then
    { st with md.center :=
        match readCenter E value with
        | some c => some c
        | none => st.md.center }
  else if name = "minzoom" then
    { st with zmin := match parseU32 value with | some z => some z | none => st.zmin }
  else if name = "maxzoom" then
    { st with zmax := match parseU32 value with | some z => some z | none => st.zmax }
  else if name = "attribution" then { st with md.attribution := some value }
  else if name = "description" then { st with md.description := some value }
  else if name = "type" then
    { st with md.type' :=
        match Type'.tryFrom value with
        | some t => some t
        | none => st.md.type' }
  else if name = "version" then
    { st with md.version := match parseU32 value with | some v => some v | none => st.md.version }
  else if name = "json" then { st with mvt_metadata_json := value }
  else { st with md.custom := insertKV st.md.custom name value }

/-- The `match format_str.as_str()` block of `read_metadata`: resolve the
buffered format tag, parsing the buffered sidecar text for `"pbf"` (the
sole hard-error source of the decode). -/
def resolveFormat (E : ExternModel) (format_str mvt_metadata_json : String) :
    Except Unit (FileFormat E) :=
  if format_str = "pbf" then
    match E.parseMvt mvt_metadata_json with
    | some mvt => .ok (.Pbf mvt)
    | none => .error ()
  else if format_str = "jpg" then .ok .Jpg
  else if format_str = "png" then .ok .Png
  else if format_str = "webp" then .ok .Webp
  else .ok (.Other format_str)

/-- `read_metadata` from `src/read.rs`. -/
def read_metadata (E : ExternModel) (rows : List (String × String)) :
    Except Unit (Metadata E) :=
  let st := rows.foldl (step E) (initState E)
  match resolveFormat E st.format_str st.mvt_metadata_json with
  | .error e => .error e
  | .ok f =>
    let md := { st.md with format := f }
    let md :=
      match st.zmin, st.zmax with
      | some minzoom, some maxzoom => { md with zoom_range := some (minzoom, maxzoom) }
      | _, _ => md
    .ok md

/-- The value of the `"bounds"` row: `tl.lon(), br.lat(), br.lon(), tl.lat()`. -/
def boundsValue (E : ExternModel) (bounds : E.Rect) : String :=
  let tl := E.top_left bounds
  let br := E.bottom_right bounds
  E.fmtF (E.lon tl) ++ "," ++ E.fmtF (E.lat br) ++ "," ++
    E.fmtF (E.lon br) ++ "," ++ E.fmtF (E.lat tl)

/-- The value of the `"center"` row: `coord.lon(), coord.lat(), zoom`. -/
def centerValue (E : ExternModel) (c : E.Coord × Nat) : String :=
  E.fmtF (E.lon c.1) ++ "," ++ E.fmtF (E.lat c.1) ++ "," ++ natToString c.2

/-- The `"json"` row, emitted only for the `Pbf` variant. -/
def jsonRows (E : ExternModel) : FileFormat E → List (String × String)
  | .Pbf mvt => [("json", E.serializeMvt mvt)]
  | _ => []

/-- A row emitted only when the optional field is present. -/
def optRow (key : String) : Option String → List (String × String)
  | some v => [(key, v)]
  | none => []

/-- `write_metadata` from `src/write.rs`. -/
def write_metadata (E : ExternModel) (metadata : Metadata E) : List (String × String) :=
  [("name", metadata.name)]
  ++ jsonRows E metadata.format
  ++ [("format", metadata.format.intoString)]
  ++ optRow "bounds" (metadata.bounds.map (boundsValue E))
  ++ optRow "center" (metadata.center.map (centerValue E))
  ++ (match metadata.zoom_range with
      | some zr => [("minzoom", natToString zr.1), ("maxzoom", natToString zr.2)]
      | none => [])
  ++ optRow "attribution" metadata.attribution
  ++ optRow "description" metadata.description
  ++ optRow "type" (metadata.type'.map Type'.intoString)
  ++ optRow "version" (metadata.version.map natToString)

@[reducible] def natExtern : ExternModel where
  F := Nat
  Coord := Nat × Nat
  Rect := (Nat × Nat) × (Nat × Nat)
  Mvt := Unit
  fmtF := natToString
  parseF := parseNat
  from_degrees := fun lon lat => some (lon, lat)
  lon := fun c => c.1
  lat := fun c => c.2
  rect_new := fun tl br => some (tl, br)
  top_left := fun r => r.1
  bottom_right := fun r => r.2
  serializeMvt := fun _ => "mvt"
  parseMvt := fun s => if s = "mvt" then some () else none

/-- SQL failure raised when preparing a statement that references a column
absent from the table's schema. -/
inductive SqlError where
  | noSuchColumn

deriving DecidableEq

/-- `TmsTileId` — modelled from the spec: the tile-coordinate addressing
scheme is external (`rosm_geo::mercator`), consumed as an opaque value
with `z()`, `x()`, `y()` accessors. -/
structure TmsTileId where
  z : Nat
  x : Nat
  y : Nat

/-- The `grid_data` table: the column names declared by the `CREATE TABLE`
that produced it, and its rows, one
`(zoom_level, tile_column, tile_row, key_name, key_json)` tuple each. -/
structure GridDataTable where
  cols : List String
  rows : List (Nat × Nat × Nat × String × String)

/-- `create_grid_tables` from `src/write.rs`, restricted to the `grid_data`
table (the `grids` table it also creates is untouched by the claims):
columns `zoom_level, tile_column, tile_row, key_name, key_json`, no rows. -/
def create_grid_tables : GridDataTable :=
  { cols := ["zoom_level", "tile_column", "tile_row", "key_name", "key_json"]
    rows := [] }

/-- The value a `grid_data` row holds in a named column of the schema
declared by `create_grid_tables`. -/
def rowCol (r : Nat × Nat × Nat × String × String) (c : String) : Option (Nat ⊕ String) :=
  if c = "zoom_level" then some (.inl r.1)
  else if c = "tile_column" then some (.inl r.2.1)
  else if c = "tile_row" then some (.inl r.2.2.1)
  else if c = "key_name" then some (.inr r.2.2.2.1)
  else if c = "key_json" then some (.inr r.2.2.2.2)
  else none

/-- `write_grid_data` from `src/write.rs`: `INSERT INTO grid_data
(zoom_level, tile_column, tile_row, key_name, key_json) VALUES (…)`.
Preparing the statement fails unless every referenced column exists. -/
def write_grid_data (db : GridDataTable) (tile_id : TmsTileId) (key data : String) :
    Except SqlError GridDataTable :=
  if ["zoom_level", "tile_column", "tile_row", "key_name", "key_json"].all
      (fun c => db.cols.contains c) then
    .ok { db with rows := db.rows ++ [(tile_id.z, tile_id.x, tile_id.y, key, data)] }
  else .error .noSuchColumn

/-- `read_grid_data` from `src/read.rs`: `SELECT key_json FROM grid_data
WHERE zoom_level = ?1 AND tile_column = ?2 AND tile_row = ?3 AND key = ?4`.
Preparing the statement fails unless every referenced column (including
`key`) exists; on success the first matching row's `key_json` is
returned, `none` when no row matches. -/
def read_grid_data (db : GridDataTable) (tile_id : TmsTileId) (key : String) :
    Except SqlError (Option String) :=
  if ["key_json", "zoom_level", "tile_column", "tile_row", "key"].all
      (fun c => db.cols.contains c) then
    .ok (((db.rows.filter fun r =>
        decide (rowCol r "zoom_level" = some (.inl tile_id.z)
          ∧ rowCol r "tile_column" = some (.inl tile_id.x)
          ∧ rowCol r "tile_row" = some (.inl tile_id.y)
          ∧ rowCol r "key" = some (.inr key))).head?).map
      fun r => r.2.2.2.2)
  else .error .noSuchColumn

/-- `FieldType` from `src/common.rs`. -/
inductive FieldType where
  | Number
  | Boolean
  | String

deriving DecidableEq

/-- serde serialization of a unit enum variant: its name as a JSON string.
(Not placed in the `FieldType` namespace: there the constructor `String`
would shadow the string type.) -/
def fieldTypeToJson : FieldType → String
  | .Number => "\"Number\""
  | .Boolean => "\"Boolean\""
  | .String => "\"String\""

def hexDigitChar (d : Nat) : Char :=
  if d < 10 then digitChar d
  else if d = 10 then 'a' else if d = 11 then 'b' else if d = 12 then 'c'
  else if d = 13 then 'd' else if d = 14 then 'e' else 'f'

/-- serde_json's escaping of one character inside a JSON string literal:
backslash escapes for the quote, the backslash and the control characters
with a short form, `\u00XX` for the remaining controls, and the
character itself otherwise. -/
def escapeChar (c : Char) : List Char :=
  if c = '"' then ['\\', '"']
  else if c = '\\' then ['\\', '\\']
  else if 32 ≤ c.toNat then [c]
  else if c = '\x08' then ['\\', 'b']
  else if c = '\x0c' then ['\\', 'f']
  else if c = '\n' then ['\\', 'n']
  else if c = '\r' then ['\\', 'r']
  else if c = '\t' then ['\\', 't']
  else
    let hi := hexDigitChar (c.toNat / 16)
    let lo := hexDigitChar (c.toNat % 16)
    '\\' :: 'u' :: '0' :: '0' :: hi :: [lo]

/-- serde_json's rendering of a JSON string literal. -/
def jsonString (s : String) : String :=
  "\"" ++ String.mk (s.data.flatMap escapeChar) ++ "\""

/-- `VectorLayer` from `src/common.rs` (the `fields` `HashMap` modelled as
an association list in iteration order). -/
structure VectorLayer where
  id : String
  fields : List (String × FieldType)
  description : String
  minzoom : Option Nat
  maxzoom : Option Nat

/-- `serde_json::to_string` for `VectorLayer` under its derive attributes:
`id`, then `fields`, then `description` only if non-empty
(`skip_serializing_if = "String::is_empty"`), then `minzoom`/`maxzoom`
only if present (`skip_serializing_if = "Option::is_none"`). -/
def VectorLayer.toJson (l : VectorLayer) : String :=
  "\x7b" ++ "\"id\":" ++ jsonString l.id
    ++ ",\"fields\":" ++ "\x7b"
    ++ String.intercalate ","
        (l.fields.map fun kv => jsonString kv.1 ++ ":" ++ fieldTypeToJson kv.2)
    ++ "\x7d"
    ++ (if l.description = "" then "" else ",\"description\":" ++ jsonString l.description)
    ++ (match l.minzoom with | some z => ",\"minzoom\":" ++ natToString z | none => "")
    ++ (match l.maxzoom with | some z => ",\"maxzoom\":" ++ natToString z | none => "")
    ++ "\x7d"

/-- The row names `read_metadata` dispatches on; everything else goes to `custom`. -/
def recognizedKeys : List String :=
  ["name", "format", "bounds", "center", "minzoom", "maxzoom",
   "attribution", "description", "type", "version", "json"]

/-- Overwrite-if-present: the effect of re-assigning an optional field only
when a new value is available. -/
def overwrite {α : Type} (new old : Option α) : Option α :=
  match new with
  | some v => some v
  | none => old

/-- The value of the last row named `key`, default `d`: the net effect of
the loop on a raw-buffered slot. -/
def lastValueD (rows : List (String × String)) (key d : String) : String :=
  rows.foldl (fun a r => if r.1 = key then r.2 else a) d

/-- The buffered `format_str` after all rows are consumed. -/
def finalFormatStr (rows : List (String × String)) : String :=
  lastValueD rows "format" ""

/-- The buffered `mvt_metadata_json` after all rows are consumed. -/
def finalJsonStr (rows : List (String × String)) : String :=
  lastValueD rows "json" ""

/-- The last successfully parsed value among the rows named `key`, starting
from `d`: the net effect of the loop on a zoom scratch slot. -/
def lastParsedZoomD (rows : List (String × String)) (key : String) (d : Option Nat) :
    Option Nat :=
  rows.foldl
    (fun a r =>
      if r.1 = key then
        match parseU32 r.2 with
        | some z => some z
        | none => a
      else a)
    d

def lastParsedZoom (rows : List (String × String)) (key : String) : Option Nat :=
  lastParsedZoomD rows key none

/-- The §4.1 bounds rule in the spec's vocabulary, with the field order
amended to what the code reads: the four comma-separated fields are, in
order, west, south, east, north; the top-left corner is (west, north),
the bottom-right corner (east, south). -/
def readBoundsSpec (E : ExternModel) (value : String) : Option E.Rect :=
  match splitComma value with
  | [west, south, east, north] =>
    match E.parseF west, E.parseF south, E.parseF east, E.parseF north with
    | some w, some s, some e, some n =>
      match E.from_degrees w n, E.from_degrees e s with
      | some tl, some br =>
        match E.rect_new tl br with
        | some bbox => some bbox
        | none => none
      | _, _ => none
    | _, _, _, _ => none
  | _ => none

/-- The §4.1 bounds rule exactly as the claim states it: fields in order
(west, north, east, south). -/
def readBoundsClaimed (E : ExternModel) (value : String) : Option E.Rect :=
  match splitComma value with
  | [west, north, east, south] =>
    match E.parseF west, E.parseF north, E.parseF east, E.parseF south with
    | some w, some n, some e, some s =>
      match E.from_degrees w n, E.from_degrees e s with
      | some tl, some br =>
        match E.rect_new tl br with
        | some bbox => some bbox
        | none => none
      | _, _ => none
    | _, _, _, _ => none
  | _ => none

/-- Whether `read_metadata` accepts (stores) the value of a row named
`name`: always for the raw-text arms, only on successful
validation/parse for the validated arms. -/
def accepts (E : ExternModel) (name value : String) : Bool :=
  if name = "bounds" then (readBounds E value).isSome
  else if name = "center" then (readCenter E value).isSome
  else if name = "minzoom" then (parseU32 value).isSome
  else if name = "maxzoom" then (parseU32 value).isSome
  else if name = "type" then (Type'.tryFrom value).isSome
  else if name = "version" then (parseU32 value).isSome
  else true

/-! ## Theorems -/

theorem toDigitsRev_eq_digits : ∀ fuel n, n ≤ fuel → toDigitsRev fuel n = Nat.digits 10 n := by
  intro fuel
  induction fuel with
  | zero =>
    intro n hn
    have : n = 0 := Nat.le_zero.mp hn
    subst this; simp [toDigitsRev]
  | succ fuel ih =>
    intro n hn
    by_cases h0 : n = 0
    · subst h0; simp [toDigitsRev]
    · have hpos : 0 < n := Nat.pos_of_ne_zero h0
      have hdiv : n / 10 ≤ fuel :=
        Nat.le_of_lt_succ (Nat.lt_of_lt_of_le (Nat.div_lt_self hpos (by norm_num)) hn)
      rw [show toDigitsRev (fuel + 1) n = n % 10 :: toDigitsRev fuel (n / 10) by
            simp [toDigitsRev, h0],
          ih _ hdiv, Nat.digits_def' (b := 10) (by norm_num) hpos]

theorem natToString_eq_digits (n : Nat) :
    natToString n = if n = 0 then "0" else ⟨((Nat.digits 10 n).map digitChar).reverse⟩ := by
  unfold natToString
  by_cases h0 : n = 0
  · simp [h0]
  · simp [h0, toDigitsRev_eq_digits n n le_rfl]

theorem charToDigit_digitChar {d : Nat} (hd : d < 10) :
    charToDigit (digitChar d) = some d := by
  interval_cases d <;> decide

theorem digitChar_ne_comma (d : Nat) : digitChar d ≠ ',' := by
  unfold digitChar
  split <;> decide

theorem parseDigits_map_digitChar {ds : List Nat} (h : ∀ d ∈ ds, d < 10) :
    parseDigits (ds.map digitChar) = some ds := by
  induction ds with
  | nil => rfl
  | cons d ds ih =>
    have hd : d < 10 := h d (List.mem_cons_self d ds)
    have hds : ∀ x ∈ ds, x < 10 := fun x hx => h x (List.mem_cons_of_mem d hx)
    simp [parseDigits, charToDigit_digitChar hd, ih hds]

theorem parseNat_natToString (n : Nat) : parseNat (natToString n) = some n := by
  by_cases h0 : n = 0
  · subst h0; rfl
  · have hne : Nat.digits 10 n ≠ [] := Nat.digits_ne_nil_iff_ne_zero.mpr h0
    have hlt' : ∀ d ∈ (Nat.digits 10 n).reverse, d < 10 := fun d hd =>
      Nat.digits_lt_base (by norm_num) (List.mem_reverse.mp hd)
    have hdata : (natToString n).data = (Nat.digits 10 n).reverse.map digitChar := by
      rw [natToString_eq_digits]
      simp [h0, List.map_reverse]
    have hpd : parseDigits ((Nat.digits 10 n).reverse.map digitChar)
        = some (Nat.digits 10 n).reverse := parseDigits_map_digitChar hlt'
    have hdne : (natToString n).data ≠ [] := by
      rw [hdata]; simp [hne]
    unfold parseNat
    rw [if_neg hdne, hdata, hpd]
    simp [Nat.ofDigits_digits]

theorem parseU32_natToString {n : Nat} (hn : n < 2 ^ 32) :
    parseU32 (natToString n) = some n := by
  by_cases h0 : n = 0
  · subst h0; decide
  · have hne : Nat.digits 10 n ≠ [] := Nat.digits_ne_nil_iff_ne_zero.mpr h0
    have hlt' : ∀ d ∈ (Nat.digits 10 n).reverse, d < 10 := fun d hd =>
      Nat.digits_lt_base (by norm_num) (List.mem_reverse.mp hd)
    have hdata : (natToString n).data = (Nat.digits 10 n).reverse.map digitChar := by
      rw [natToString_eq_digits]
      simp [h0, List.map_reverse]
    have hpd : parseDigits ((Nat.digits 10 n).reverse.map digitChar)
        = some (Nat.digits 10 n).reverse := parseDigits_map_digitChar hlt'
    have hdne : (natToString n).data ≠ [] := by
      rw [hdata]; simp [hne]
    unfold parseU32
    rw [if_neg hdne, hdata, hpd]
    simp [Nat.ofDigits_digits]
    simpa using hn

theorem natToString_no_comma (n : Nat) : ',' ∉ (natToString n).data := by
  by_cases h0 : n = 0
  · subst h0; decide
  · have hdata : (natToString n).data = ((Nat.digits 10 n).map digitChar).reverse := by
      rw [natToString_eq_digits]
      simp [h0]
    rw [hdata]
    intro hmem
    rw [List.mem_reverse, List.mem_map] at hmem
    obtain ⟨d, _, hd⟩ := hmem
    exact digitChar_ne_comma d hd

theorem splitCommaChars_no_comma {xs : List Char} (h : ',' ∉ xs) :
    splitCommaChars xs = [xs] := by
  induction xs with
  | nil => rfl
  | cons x xs ih =>
    have hx : x ≠ ',' := fun he => h (he ▸ List.mem_cons_self x xs)
    have hxs : ',' ∉ xs := fun hm => h (List.mem_cons_of_mem x hm)
    simp [splitCommaChars, hx, ih hxs]

theorem splitCommaChars_append {xs : List Char} (ys : List Char) (h : ',' ∉ xs) :
    splitCommaChars (xs ++ ',' :: ys) = xs :: splitCommaChars ys := by
  induction xs with
  | nil => simp [splitCommaChars]
  | cons x xs ih =>
    have hx : x ≠ ',' := fun he => h (he ▸ List.mem_cons_self x xs)
    have hxs : ',' ∉ xs := fun hm => h (List.mem_cons_of_mem x hm)
    simp [splitCommaChars, hx, ih hxs]

theorem data_append (a b : String) : (a ++ b).data = a.data ++ b.data := rfl

theorem mk_data (s : String) : String.mk s.data = s := rfl

theorem splitComma_four (a b c d : String)
    (ha : ',' ∉ a.data) (hb : ',' ∉ b.data) (hc : ',' ∉ c.data) (hd : ',' ∉ d.data) :
    splitComma (a ++ "," ++ b ++ "," ++ c ++ "," ++ d) = [a, b, c, d] := by
  have hdata : (a ++ "," ++ b ++ "," ++ c ++ "," ++ d).data
      = a.data ++ ',' :: (b.data ++ ',' :: (c.data ++ ',' :: d.data)) := by
    simp [data_append]
  unfold splitComma
  rw [hdata, splitCommaChars_append _ ha, splitCommaChars_append _ hb,
    splitCommaChars_append _ hc, splitCommaChars_no_comma hd]
  simp [mk_data]

theorem splitComma_three (a b c : String)
    (ha : ',' ∉ a.data) (hb : ',' ∉ b.data) (hc : ',' ∉ c.data) :
    splitComma (a ++ "," ++ b ++ "," ++ c) = [a, b, c] := by
  have hdata : (a ++ "," ++ b ++ "," ++ c).data
      = a.data ++ ',' :: (b.data ++ ',' :: c.data) := by
    simp [data_append]
  unfold splitComma
  rw [hdata, splitCommaChars_append _ ha, splitCommaChars_append _ hb,
    splitCommaChars_no_comma hc]
  simp [mk_data]

theorem step_name_eq (E : ExternModel) (st : ReadState E) (v : String) :
    step E st ("name", v) = { st with md.name := v } := rfl

theorem step_format_eq (E : ExternModel) (st : ReadState E) (v : String) :
    step E st ("format", v) = { st with format_str := v } := rfl

theorem step_bounds_eq (E : ExternModel) (st : ReadState E) (v : String) :
    step E st ("bounds", v)
      = { st with md.bounds := overwrite (readBounds E v) st.md.bounds } := by
  cases h : readBounds E v <;> simp [step, overwrite, h]

theorem step_center_eq (E : ExternModel) (st : ReadState E) (v : String) :
    step E st ("center", v)
      = { st with md.center := overwrite (readCenter E v) st.md.center } := by
  cases h : readCenter E v <;> simp [step, overwrite, h]

theorem step_minzoom_eq (E : ExternModel) (st : ReadState E) (v : String) :
    step E st ("minzoom", v) = { st with zmin := overwrite (parseU32 v) st.zmin } := by
  cases h : parseU32 v <;> simp [step, overwrite, h]

theorem step_maxzoom_eq (E : ExternModel) (st : ReadState E) (v : String) :
    step E st ("maxzoom", v) = { st with zmax := overwrite (parseU32 v) st.zmax } := by
  cases h : parseU32 v <;> simp [step, overwrite, h]

theorem step_attribution_eq (E : ExternModel) (st : ReadState E) (v : String) :
    step E st ("attribution", v) = { st with md.attribution := some v } := rfl

theorem step_description_eq (E : ExternModel) (st : ReadState E) (v : String) :
    step E st ("description", v) = { st with md.description := some v } := rfl

theorem step_type_eq (E : ExternModel) (st : ReadState E) (v : String) :
    step E st ("type", v)
      = { st with md.type' := overwrite (Type'.tryFrom v) st.md.type' } := by
  cases h : Type'.tryFrom v <;> simp [step, overwrite, h]

theorem step_version_eq (E : ExternModel) (st : ReadState E) (v : String) :
    step E st ("version", v)
      = { st with md.version := overwrite (parseU32 v) st.md.version } := by
  cases h : parseU32 v <;> simp [step, overwrite, h]

theorem step_json_eq (E : ExternModel) (st : ReadState E) (v : String) :
    step E st ("json", v) = { st with mvt_metadata_json := v } := rfl

theorem step_custom_eq (E : ExternModel) (st : ReadState E) (n v : String)
    (h : n ∉ recognizedKeys) :
    step E st (n, v) = { st with md.custom := insertKV st.md.custom n v } := by
  simp only [recognizedKeys, List.mem_cons, List.not_mem_nil, or_false, not_or] at h
  obtain ⟨h1, h2, h3, h4, h5, h6, h7, h8, h9, h10, h11⟩ := h
  simp [step, h1, h2, h3, h4, h5, h6, h7, h8, h9, h10, h11]

theorem step_proj_format_str (E : ExternModel) (st : ReadState E) (n v : String) :
    (step E st (n, v)).format_str = if n = "format" then v else st.format_str := by
  by_cases hmem : n ∈ recognizedKeys
  · simp only [recognizedKeys, List.mem_cons, List.not_mem_nil, or_false] at hmem
    rcases hmem with rfl | rfl | rfl | rfl | rfl | rfl | rfl | rfl | rfl | rfl | rfl <;>
      simp [step_name_eq, step_format_eq, step_bounds_eq, step_center_eq, step_minzoom_eq,
        step_maxzoom_eq, step_attribution_eq, step_description_eq, step_type_eq,
        step_version_eq, step_json_eq]
  · have hn : n ≠ "format" := fun he => hmem (by rw [he]; simp [recognizedKeys])
    rw [step_custom_eq E st n v hmem, if_neg hn]

theorem step_proj_json_str (E : ExternModel) (st : ReadState E) (n v : String) :
    (step E st (n, v)).mvt_metadata_json
      = if n = "json" then v else st.mvt_metadata_json := by
  by_cases hmem : n ∈ recognizedKeys
  · simp only [recognizedKeys, List.mem_cons, List.not_mem_nil, or_false] at hmem
    rcases hmem with rfl | rfl | rfl | rfl | rfl | rfl | rfl | rfl | rfl | rfl | rfl <;>
      simp [step_name_eq, step_format_eq, step_bounds_eq, step_center_eq, step_minzoom_eq,
        step_maxzoom_eq, step_attribution_eq, step_description_eq, step_type_eq,
        step_version_eq, step_json_eq]
  · have hn : n ≠ "json" := fun he => hmem (by rw [he]; simp [recognizedKeys])
    rw [step_custom_eq E st n v hmem, if_neg hn]

theorem step_proj_zmin (E : ExternModel) (st : ReadState E) (n v : String) :
    (step E st (n, v)).zmin
      = if n = "minzoom" then overwrite (parseU32 v) st.zmin else st.zmin := by
  by_cases hmem : n ∈ recognizedKeys
  · simp only [recognizedKeys, List.mem_cons, List.not_mem_nil, or_false] at hmem
    rcases hmem with rfl | rfl | rfl | rfl | rfl | rfl | rfl | rfl | rfl | rfl | rfl <;>
      simp [step_name_eq, step_format_eq, step_bounds_eq, step_center_eq, step_minzoom_eq,
        step_maxzoom_eq, step_attribution_eq, step_description_eq, step_type_eq,
        step_version_eq, step_json_eq]
  · have hn : n ≠ "minzoom" := fun he => hmem (by rw [he]; simp [recognizedKeys])
    rw [step_custom_eq E st n v hmem, if_neg hn]

theorem step_proj_zmax (E : ExternModel) (st : ReadState E) (n v : String) :
    (step E st (n, v)).zmax
      = if n = "maxzoom" then overwrite (parseU32 v) st.zmax else st.zmax := by
  by_cases hmem : n ∈ recognizedKeys
  · simp only [recognizedKeys, List.mem_cons, List.not_mem_nil, or_false] at hmem
    rcases hmem with rfl | rfl | rfl | rfl | rfl | rfl | rfl | rfl | rfl | rfl | rfl <;>
      simp [step_name_eq, step_format_eq, step_bounds_eq, step_center_eq, step_minzoom_eq,
        step_maxzoom_eq, step_attribution_eq, step_description_eq, step_type_eq,
        step_version_eq, step_json_eq]
  · have hn : n ≠ "maxzoom" := fun he => hmem (by rw [he]; simp [recognizedKeys])
    rw [step_custom_eq E st n v hmem, if_neg hn]

theorem step_proj_zoom_range (E : ExternModel) (st : ReadState E) (n v : String) :
    (step E st (n, v)).md.zoom_range = st.md.zoom_range := by
  by_cases hmem : n ∈ recognizedKeys
  · simp only [recognizedKeys, List.mem_cons, List.not_mem_nil, or_false] at hmem
    rcases hmem with rfl | rfl | rfl | rfl | rfl | rfl | rfl | rfl | rfl | rfl | rfl <;>
      simp [step_name_eq, step_format_eq, step_bounds_eq, step_center_eq, step_minzoom_eq,
        step_maxzoom_eq, step_attribution_eq, step_description_eq, step_type_eq,
        step_version_eq, step_json_eq]
  · rw [step_custom_eq E st n v hmem]

theorem lastValueD_cons (n v : String) (rows : List (String × String)) (key d : String) :
    lastValueD ((n, v) :: rows) key d = lastValueD rows key (if n = key then v else d) := rfl

theorem lastParsedZoomD_cons (n v : String) (rows : List (String × String)) (key : String)
    (d : Option Nat) :
    lastParsedZoomD ((n, v) :: rows) key d
      = lastParsedZoomD rows key (if n = key then overwrite (parseU32 v) d else d) := by
  unfold lastParsedZoomD
  rw [List.foldl_cons]
  congr 1
  cases parseU32 v <;> simp [overwrite]

theorem foldl_format_str (E : ExternModel) (rows : List (String × String)) :
    ∀ st : ReadState E,
      (rows.foldl (step E) st).format_str = lastValueD rows "format" st.format_str := by
  induction rows with
  | nil => intro st; rfl
  | cons r rows ih =>
    rcases r with ⟨n, v⟩
    intro st
    rw [List.foldl_cons, ih, lastValueD_cons]
    exact congrArg _ (step_proj_format_str E st n v)

theorem foldl_json_str (E : ExternModel) (rows : List (String × String)) :
    ∀ st : ReadState E,
      (rows.foldl (step E) st).mvt_metadata_json
        = lastValueD rows "json" st.mvt_metadata_json := by
  induction rows with
  | nil => intro st; rfl
  | cons r rows ih =>
    rcases r with ⟨n, v⟩
    intro st
    rw [List.foldl_cons, ih, lastValueD_cons]
    exact congrArg _ (step_proj_json_str E st n v)

theorem foldl_zmin (E : ExternModel) (rows : List (String × String)) :
    ∀ st : ReadState E,
      (rows.foldl (step E) st).zmin = lastParsedZoomD rows "minzoom" st.zmin := by
  induction rows with
  | nil => intro st; rfl
  | cons r rows ih =>
    rcases r with ⟨n, v⟩
    intro st
    rw [List.foldl_cons, ih, lastParsedZoomD_cons]
    exact congrArg _ (step_proj_zmin E st n v)

theorem foldl_zmax (E : ExternModel) (rows : List (String × String)) :
    ∀ st : ReadState E,
      (rows.foldl (step E) st).zmax = lastParsedZoomD rows "maxzoom" st.zmax := by
  induction rows with
  | nil => intro st; rfl
  | cons r rows ih =>
    rcases r with ⟨n, v⟩
    intro st
    rw [List.foldl_cons, ih, lastParsedZoomD_cons]
    exact congrArg _ (step_proj_zmax E st n v)

theorem foldl_zoom_range (E : ExternModel) (rows : List (String × String)) :
    ∀ st : ReadState E,
      (rows.foldl (step E) st).md.zoom_range = st.md.zoom_range := by
  induction rows with
  | nil => intro st; rfl
  | cons r rows ih =>
    rcases r with ⟨n, v⟩
    intro st
    rw [List.foldl_cons, ih, step_proj_zoom_range E st n v]

/-- Characterization of `read_metadata`: the format is resolved from the
last `"format"` and `"json"` row values, the zoom range from the last
successfully parsed `"minzoom"`/`"maxzoom"` row values. -/
theorem read_metadata_char (E : ExternModel) (rows : List (String × String)) :
    read_metadata E rows
      = match resolveFormat E (finalFormatStr rows) (finalJsonStr rows) with
        | .error e => .error e
        | .ok f =>
          let st := rows.foldl (step E) (initState E)
          let md := { st.md with format := f }
          let md :=
            match lastParsedZoom rows "minzoom", lastParsedZoom rows "maxzoom" with
            | some minzoom, some maxzoom => { md with zoom_range := some (minzoom, maxzoom) }
            | _, _ => md
          .ok md := by
  have hf : (rows.foldl (step E) (initState E)).format_str = finalFormatStr rows :=
    foldl_format_str E rows (initState E)
  have hj : (rows.foldl (step E) (initState E)).mvt_metadata_json = finalJsonStr rows :=
    foldl_json_str E rows (initState E)
  have hmin : (rows.foldl (step E) (initState E)).zmin = lastParsedZoom rows "minzoom" :=
    foldl_zmin E rows (initState E)
  have hmax : (rows.foldl (step E) (initState E)).zmax = lastParsedZoom rows "maxzoom" :=
    foldl_zmax E rows (initState E)
  simp only [read_metadata]
  rw [hf, hj, hmin, hmax]

theorem tryFrom_intoString (t : Type') : Type'.tryFrom t.intoString = some t := by
  cases t <;> rfl

theorem readBounds_boundsValue (E : ExternModel)
    (hpf : ∀ x, E.parseF (E.fmtF x) = some x)
    (hnc : ∀ x, ',' ∉ (E.fmtF x).data)
    (hfd : ∀ c, E.from_degrees (E.lon c) (E.lat c) = some c)
    (hrn : ∀ r, E.rect_new (E.top_left r) (E.bottom_right r) = some r)
    (r : E.Rect) :
    readBounds E (boundsValue E r) = some r := by
  unfold readBounds boundsValue
  rw [splitComma_four _ _ _ _ (hnc _) (hnc _) (hnc _) (hnc _)]
  simp [hpf, hfd, hrn]

theorem readCenter_centerValue (E : ExternModel)
    (hpf : ∀ x, E.parseF (E.fmtF x) = some x)
    (hnc : ∀ x, ',' ∉ (E.fmtF x).data)
    (hfd : ∀ c, E.from_degrees (E.lon c) (E.lat c) = some c)
    (c : E.Coord × Nat) (hz : c.2 < 2 ^ 32) :
    readCenter E (centerValue E c) = some c := by
  unfold readCenter centerValue
  rw [splitComma_three _ _ _ (hnc _) (hnc _) (natToString_no_comma _)]
  simp [hpf, parseU32_natToString hz, hfd]

theorem foldl_jsonRows (E : ExternModel) (st : ReadState E) (f : FileFormat E) :
    (jsonRows E f).foldl (step E) st
      = { st with mvt_metadata_json :=
            match f with
            | .Pbf mvt => E.serializeMvt mvt
            | _ => st.mvt_metadata_json } := by
  cases f <;> rfl

theorem foldl_boundsRow (E : ExternModel) (st : ReadState E) (o : Option E.Rect)
    (hpf : ∀ x, E.parseF (E.fmtF x) = some x)
    (hnc : ∀ x, ',' ∉ (E.fmtF x).data)
    (hfd : ∀ c, E.from_degrees (E.lon c) (E.lat c) = some c)
    (hrn : ∀ r, E.rect_new (E.top_left r) (E.bottom_right r) = some r) :
    (optRow "bounds" (o.map (boundsValue E))).foldl (step E) st
      = { st with md.bounds := overwrite o st.md.bounds } := by
  cases o with
  | none => rfl
  | some r =>
    show step E st ("bounds", boundsValue E r) = _
    rw [step_bounds_eq, readBounds_boundsValue E hpf hnc hfd hrn r]

theorem foldl_centerRow (E : ExternModel) (st : ReadState E) (o : Option (E.Coord × Nat))
    (hpf : ∀ x, E.parseF (E.fmtF x) = some x)
    (hnc : ∀ x, ',' ∉ (E.fmtF x).data)
    (hfd : ∀ c, E.from_degrees (E.lon c) (E.lat c) = some c)
    (hz : ∀ c ∈ o, c.2 < 2 ^ 32) :
    (optRow "center" (o.map (centerValue E))).foldl (step E) st
      = { st with md.center := overwrite o st.md.center } := by
  cases o with
  | none => rfl
  | some c =>
    show step E st ("center", centerValue E c) = _
    rw [step_center_eq, readCenter_centerValue E hpf hnc hfd c (hz c rfl)]

theorem foldl_zoomRows (E : ExternModel) (st : ReadState E) (o : Option (Nat × Nat))
    (hz : ∀ p ∈ o, p.1 < 2 ^ 32 ∧ p.2 < 2 ^ 32) :
    ((match o with
      | some zr => [("minzoom", natToString zr.1), ("maxzoom", natToString zr.2)]
      | none => []).foldl (step E) st)
      = { st with zmin := overwrite (o.map Prod.fst) st.zmin,
                  zmax := overwrite (o.map Prod.snd) st.zmax } := by
  cases o with
  | none => rfl
  | some zr =>
    show step E (step E st ("minzoom", natToString zr.1)) ("maxzoom", natToString zr.2) = _
    rw [step_minzoom_eq, step_maxzoom_eq,
      parseU32_natToString (hz zr rfl).1, parseU32_natToString (hz zr rfl).2]
    rfl

theorem foldl_attributionRow (E : ExternModel) (st : ReadState E) (o : Option String) :
    (optRow "attribution" o).foldl (step E) st
      = { st with md.attribution := overwrite o st.md.attribution } := by
  cases o <;> rfl

theorem foldl_descriptionRow (E : ExternModel) (st : ReadState E) (o : Option String) :
    (optRow "description" o).foldl (step E) st
      = { st with md.description := overwrite o st.md.description } := by
  cases o <;> rfl

theorem foldl_typeRow (E : ExternModel) (st : ReadState E) (o : Option Type') :
    (optRow "type" (o.map Type'.intoString)).foldl (step E) st
      = { st with md.type' := overwrite o st.md.type' } := by
  cases o with
  | none => rfl
  | some t =>
    show step E st ("type", t.intoString) = _
    rw [step_type_eq, tryFrom_intoString t]

theorem foldl_versionRow (E : ExternModel) (st : ReadState E) (o : Option Nat)
    (hv : ∀ n ∈ o, n < 2 ^ 32) :
    (optRow "version" (o.map natToString)).foldl (step E) st
      = { st with md.version := overwrite o st.md.version } := by
  cases o with
  | none => rfl
  | some n =>
    show step E st ("version", natToString n) = _
    rw [step_version_eq, parseU32_natToString (hv n rfl)]

theorem overwrite_none {α : Type} (o : Option α) : overwrite o none = o := by
  cases o <;> rfl

theorem foldl_nameRow (E : ExternModel) (st : ReadState E) (v : String) :
    List.foldl (step E) st [("name", v)] = { st with md.name := v } := rfl

theorem foldl_formatRow (E : ExternModel) (st : ReadState E) (v : String) :
    List.foldl (step E) st [("format", v)] = { st with format_str := v } := rfl

/-- C1 (amended): encoding a `Metadata` record with `write_metadata` and
decoding the emitted rows with `read_metadata` reproduces every field
that was present in the original record, with `custom` entries not
re-emitted and so absent after the round trip — provided the format is
not the `Other` variant carrying one of the reserved tags
`pbf`/`jpg`/`png`/`webp`. The remaining hypotheses are the documented
external-collaborator contracts (the serde and number codecs round-trip,
a coordinate/rectangle is reconstructible from its accessors) and the
`u32` ranges of the zoom/version values. -/
theorem write_read_metadata_roundtrip (E : ExternModel) (m : Metadata E)
    (hps : ∀ x, E.parseMvt (E.serializeMvt x) = some x)
    (hpf : ∀ x, E.parseF (E.fmtF x) = some x)
    (hnc : ∀ x, ',' ∉ (E.fmtF x).data)
    (hfd : ∀ c, E.from_degrees (E.lon c) (E.lat c) = some c)
    (hrn : ∀ r, E.rect_new (E.top_left r) (E.bottom_right r) = some r)
    (hz : ∀ p ∈ m.zoom_range, p.1 < 2 ^ 32 ∧ p.2 < 2 ^ 32)
    (hcz : ∀ c ∈ m.center, c.2 < 2 ^ 32)
    (hv : ∀ n ∈ m.version, n < 2 ^ 32)
    (hother : ∀ s, m.format = .Other s → s ∉ ["pbf", "jpg", "png", "webp"]) :
    read_metadata E (write_metadata E m) = .ok { m with custom := [] } := by
  obtain ⟨name, format, bounds, center, zoom_range, attribution, description, type', version,
    custom⟩ := m
  unfold write_metadata
  simp only [read_metadata]
  simp only [List.foldl_append]
  rw [foldl_nameRow, foldl_jsonRows, foldl_formatRow,
    foldl_boundsRow E _ bounds hpf hnc hfd hrn,
    foldl_centerRow E _ center hpf hnc hfd hcz,
    foldl_zoomRows E _ zoom_range hz,
    foldl_attributionRow, foldl_descriptionRow, foldl_typeRow,
    foldl_versionRow E _ version hv]
  dsimp only [initState]
  simp only [overwrite_none]
  cases format with
  | Pbf mvt =>
    cases zoom_range with
    | none => simp [FileFormat.intoString, resolveFormat, hps mvt]
    | some zr => simp [FileFormat.intoString, resolveFormat, hps mvt]
  | Jpg =>
    cases zoom_range with
    | none => simp [FileFormat.intoString, resolveFormat]
    | some zr => simp [FileFormat.intoString, resolveFormat]
  | Png =>
    cases zoom_range with
    | none => simp [FileFormat.intoString, resolveFormat]
    | some zr => simp [FileFormat.intoString, resolveFormat]
  | Webp =>
    cases zoom_range with
    | none => simp [FileFormat.intoString, resolveFormat]
    | some zr => simp [FileFormat.intoString, resolveFormat]
  | Other s =>
    have hs := hother s rfl
    simp only [List.mem_cons, List.not_mem_nil, or_false, not_or] at hs
    obtain ⟨h1, h2, h3, h4⟩ := hs
    cases zoom_range with
    | none => simp [FileFormat.intoString, resolveFormat, h1, h2, h3, h4]
    | some zr => simp [FileFormat.intoString, resolveFormat, h1, h2, h3, h4]

theorem lastValueD_default_or_mem (rows : List (String × String)) (key : String) :
    ∀ d, lastValueD rows key d = d ∨ (key, lastValueD rows key d) ∈ rows := by
  induction rows with
  | nil => intro d; exact Or.inl rfl
  | cons r rows ih =>
    intro d
    rcases r with ⟨n, v⟩
    rw [lastValueD_cons]
    rcases ih (if n = key then v else d) with h | h
    · rw [h]
      by_cases hk : n = key
      · subst hk
        rw [if_pos rfl]
        exact Or.inr (List.mem_cons_self _ _)
      · rw [if_neg hk]
        exact Or.inl rfl
    · exact Or.inr (List.mem_cons_of_mem _ h)

/-- C2: for every row set whose (last) `format` row has value `"pbf"` but
which contains no `json` row whose value parses as a valid `MvtMetadata`
document, `read_metadata` fails (the sidecar parse is a hard error). The
hypothesis `hempty` is the external serde contract that the empty buffer
(no `json` row at all) is not a valid document. -/
theorem read_metadata_pbf_requires_json (E : ExternModel) (rows : List (String × String))
    (hfmt : finalFormatStr rows = "pbf")
    (hjson : ∀ v, ("json", v) ∈ rows → E.parseMvt v = none)
    (hempty : E.parseMvt "" = none) :
    read_metadata E rows = .error () := by
  have hjs : E.parseMvt (finalJsonStr rows) = none := by
    rcases lastValueD_default_or_mem rows "json" "" with h | h
    · rw [finalJsonStr, h]; exact hempty
    · exact hjson _ h
  rw [read_metadata_char, hfmt]
  simp [resolveFormat, hjs]

/-- C2 witness: a row set declaring `format = pbf` with no `json` row at
all is rejected. -/
theorem read_metadata_pbf_requires_json_witness :
    read_metadata natExtern [("format", "pbf")] = .error () :=
  read_metadata_pbf_requires_json natExtern [("format", "pbf")] rfl
    (fun v hv => by simp at hv) rfl

/-- C6: when the (last) `format` row value is not `"pbf"`, `read_metadata`
never fails — and each individually malformed value (unparsable
`version`, malformed `bounds`, malformed `center`, unrecognized `type`)
leaves the loop state, hence the corresponding field, unchanged. -/
theorem read_metadata_lenient (E : ExternModel) (rows : List (String × String))
    (h : finalFormatStr rows ≠ "pbf") :
    (∃ m : Metadata E, read_metadata E rows = .ok m)
    ∧ (∀ (st : ReadState E) v, parseU32 v = none → step E st ("version", v) = st)
    ∧ (∀ (st : ReadState E) v, readBounds E v = none → step E st ("bounds", v) = st)
    ∧ (∀ (st : ReadState E) v, readCenter E v = none → step E st ("center", v) = st)
    ∧ (∀ (st : ReadState E) v, Type'.tryFrom v = none → step E st ("type", v) = st) := by
  refine ⟨?_, ?_, ?_, ?_, ?_⟩
  · rw [read_metadata_char]
    have hres : ∃ f : FileFormat E,
        resolveFormat E (finalFormatStr rows) (finalJsonStr rows) = .ok f := by
      unfold resolveFormat
      rw [if_neg h]
      split_ifs <;> exact ⟨_, rfl⟩
    obtain ⟨f, hf⟩ := hres
    rw [hf]
    cases lastParsedZoom rows "minzoom" <;> cases lastParsedZoom rows "maxzoom" <;>
      exact ⟨_, rfl⟩
  · intro st v hv
    rw [step_version_eq, hv]; rfl
  · intro st v hv
    rw [step_bounds_eq, hv]; rfl
  · intro st v hv
    rw [step_center_eq, hv]; rfl
  · intro st v hv
    rw [step_type_eq, hv]; rfl

/-- C6 witness: a row set full of malformed values decodes successfully. -/
theorem read_metadata_lenient_witness :
    (∃ m : Metadata natExtern,
      read_metadata natExtern
        [("version", "x"), ("bounds", "1,2"), ("center", "a,b,c"),
         ("type", "zzz"), ("format", "png")] = .ok m)
    ∧ (∀ (st : ReadState natExtern) v, parseU32 v = none →
        step natExtern st ("version", v) = st)
    ∧ (∀ (st : ReadState natExtern) v, readBounds natExtern v = none →
        step natExtern st ("bounds", v) = st)
    ∧ (∀ (st : ReadState natExtern) v, readCenter natExtern v = none →
        step natExtern st ("center", v) = st)
    ∧ (∀ (st : ReadState natExtern) v, Type'.tryFrom v = none →
        step natExtern st ("type", v) = st) :=
  read_metadata_lenient natExtern
    [("version", "x"), ("bounds", "1,2"), ("center", "a,b,c"),
     ("type", "zzz"), ("format", "png")] (by decide)

/-- C10: a row set with no `format` row, or whose (last) `format` row holds
the empty string, decodes successfully and yields `FileFormat::Other("")`. -/
theorem read_metadata_empty_format (E : ExternModel) (rows : List (String × String))
    (h : finalFormatStr rows = "") :
    ∃ m : Metadata E, read_metadata E rows = .ok m ∧ m.format = .Other "" := by
  rw [read_metadata_char, h]
  have hres : resolveFormat E "" (finalJsonStr rows) = .ok (.Other "") := by
    simp [resolveFormat]
  rw [hres]
  cases lastParsedZoom rows "minzoom" <;> cases lastParsedZoom rows "maxzoom" <;>
    exact ⟨_, rfl, rfl⟩

/-- C10 witness: a row set without any `format` row. -/
theorem read_metadata_empty_format_witness :
    ∃ m : Metadata natExtern,
      read_metadata natExtern [("name", "x")] = .ok m ∧ m.format = .Other "" :=
  read_metadata_empty_format natExtern [("name", "x")] rfl

/-- C7: for every successful decode, the zoom range is exactly determined
by the last successfully parsed `minzoom` and `maxzoom` row values — it
is present if and only if both were seen. -/
theorem read_metadata_zoom_range_char (E : ExternModel) (rows : List (String × String))
    (m : Metadata E) (h : read_metadata E rows = .ok m) :
    m.zoom_range
      = match lastParsedZoom rows "minzoom", lastParsedZoom rows "maxzoom" with
        | some minzoom, some maxzoom => some (minzoom, maxzoom)
        | _, _ => none := by
  rw [read_metadata_char] at h
  rcases hres : resolveFormat E (finalFormatStr rows) (finalJsonStr rows) with e | f
  · rw [hres] at h; cases h
  · rw [hres] at h
    have hzr : (rows.foldl (step E) (initState E)).md.zoom_range = none :=
      foldl_zoom_range E rows (initState E)
    rcases hmin : lastParsedZoom rows "minzoom" with _ | mi <;>
      rcases hmax : lastParsedZoom rows "maxzoom" with _ | ma <;>
      rw [hmin, hmax] at h <;> simp only [] at h <;> cases h <;> simp [hzr]

/-- C7 witness: both bounds present yields the range; evaluated through a
decode of two rows. -/
theorem read_metadata_zoom_range_char_witness :
    ({ zoom_range := some (3, 5) } : Metadata natExtern).zoom_range = some (3, 5) :=
  read_metadata_zoom_range_char natExtern [("minzoom", "3"), ("maxzoom", "5")]
    { zoom_range := some (3, 5) } rfl

theorem readBounds_eq_spec (E : ExternModel) (v : String) :
    readBounds E v = readBoundsSpec E v := by
  unfold readBounds readBoundsSpec
  rcases h : splitComma v with _ | ⟨a, _ | ⟨b, _ | ⟨c, _ | ⟨d, _ | ⟨e, t⟩⟩⟩⟩⟩ <;> simp [h]

theorem readBounds_none_of_length (E : ExternModel) (v : String)
    (h : (splitComma v).length ≠ 4) : readBounds E v = none := by
  unfold readBounds
  simp [h]

/-- C4 (amended): a 4-field `bounds` row is interpreted in the order
(west, south, east, north) — stated against the independently written
spec decoder `readBoundsSpec` — and any other field count leaves the
state (hence `bounds`) entirely unchanged. -/
theorem bounds_field_order (E : ExternModel) (st : ReadState E) (v : String) :
    ((splitComma v).length = 4 →
      (step E st ("bounds", v)).md.bounds = overwrite (readBoundsSpec E v) st.md.bounds)
    ∧ ((splitComma v).length ≠ 4 → step E st ("bounds", v) = st) := by
  constructor
  · intro _
    rw [step_bounds_eq, readBounds_eq_spec]
  · intro h
    rw [step_bounds_eq, readBounds_none_of_length E v h]; rfl

/-- C4 witness: the decoder realizes the (west, south, east, north)
reading on the concrete row value `"1,2,3,4"`. -/
theorem bounds_field_order_witness :
    (step natExtern (initState natExtern) ("bounds", "1,2,3,4")).md.bounds
      = overwrite (readBoundsSpec natExtern "1,2,3,4") (initState natExtern).md.bounds :=
  (bounds_field_order natExtern (initState natExtern) "1,2,3,4").1 (by decide)

/-- C4 counterexample: on the row value `"1,2,3,4"` the decoder produces
the rectangle with corners ((1,4),(3,2)) — field 1 read as the south
(bottom) latitude and field 3 as the north (top) latitude — while the
claimed (west, north, east, south) reading produces ((1,2),(3,4)). -/
theorem bounds_field_order_counterexample :
    readBounds natExtern "1,2,3,4" = some ((1, 4), (3, 2))
    ∧ readBoundsClaimed natExtern "1,2,3,4" = some ((1, 2), (3, 4))
    ∧ readBounds natExtern "1,2,3,4" ≠ readBoundsClaimed natExtern "1,2,3,4" := by
  refine ⟨rfl, rfl, ?_⟩
  decide

theorem insertKV_insertKV (l : List (String × String)) (k a b : String) :
    insertKV (insertKV l k a) k b = insertKV l k b := by
  induction l with
  | nil => simp [insertKV]
  | cons kv rest ih =>
    rcases kv with ⟨k1, v1⟩
    by_cases hk : k1 = k
    · subst hk; simp [insertKV]
    · simp [insertKV, hk, ih]

/-- C5 (amended): when the decoder accepts the later row's value (always,
for the raw-text arms; upon successful validation, for the validated
arms), the later of two same-named rows fully overwrites the effect of
the earlier; when it rejects the later value, the earlier row's effect is
kept unchanged. -/
theorem step_last_accepted (E : ExternModel) (st : ReadState E) (n v1 v2 : String) :
    (accepts E n v2 = true →
      step E (step E st (n, v1)) (n, v2) = step E st (n, v2))
    ∧ (accepts E n v2 = false →
      step E (step E st (n, v1)) (n, v2) = step E st (n, v1)) := by
  by_cases hmem : n ∈ recognizedKeys
  · simp only [recognizedKeys, List.mem_cons, List.not_mem_nil, or_false] at hmem
    rcases hmem with rfl | rfl | rfl | rfl | rfl | rfl | rfl | rfl | rfl | rfl | rfl
    · exact ⟨fun _ => rfl, fun hacc => by simp [accepts] at hacc⟩
    · exact ⟨fun _ => rfl, fun hacc => by simp [accepts] at hacc⟩
    · cases hb : readBounds E v2 with
      | some b =>
        refine ⟨fun _ => ?_, fun hacc => absurd hacc ?_⟩
        · rw [step_bounds_eq, step_bounds_eq, step_bounds_eq, hb]; rfl
        · simp [accepts, hb]
      | none =>
        refine ⟨fun hacc => absurd hacc ?_, fun _ => ?_⟩
        · simp [accepts, hb]
        · rw [step_bounds_eq, step_bounds_eq, hb]; rfl
    · cases hc : readCenter E v2 with
      | some c =>
        refine ⟨fun _ => ?_, fun hacc => absurd hacc ?_⟩
        · rw [step_center_eq, step_center_eq, step_center_eq, hc]; rfl
        · simp [accepts, hc]
      | none =>
        refine ⟨fun hacc => absurd hacc ?_, fun _ => ?_⟩
        · simp [accepts, hc]
        · rw [step_center_eq, step_center_eq, hc]; rfl
    · cases hz : parseU32 v2 with
      | some z =>
        refine ⟨fun _ => ?_, fun hacc => absurd hacc ?_⟩
        · rw [step_minzoom_eq, step_minzoom_eq, step_minzoom_eq, hz]; rfl
        · simp [accepts, hz]
      | none =>
        refine ⟨fun hacc => absurd hacc ?_, fun _ => ?_⟩
        · simp [accepts, hz]
        · rw [step_minzoom_eq, step_minzoom_eq, hz]; rfl
    · cases hz : parseU32 v2 with
      | some z =>
        refine ⟨fun _ => ?_, fun hacc => absurd hacc ?_⟩
        · rw [step_maxzoom_eq, step_maxzoom_eq, step_maxzoom_eq, hz]; rfl
        · simp [accepts, hz]
      | none =>
        refine ⟨fun hacc => absurd hacc ?_, fun _ => ?_⟩
        · simp [accepts, hz]
        · rw [step_maxzoom_eq, step_maxzoom_eq, hz]; rfl
    · exact ⟨fun _ => rfl, fun hacc => by simp [accepts] at hacc⟩
    · exact ⟨fun _ => rfl, fun hacc => by simp [accepts] at hacc⟩
    · cases ht : Type'.tryFrom v2 with
      | some t =>
        refine ⟨fun _ => ?_, fun hacc => absurd hacc ?_⟩
        · rw [step_type_eq, step_type_eq, step_type_eq, ht]; rfl
        · simp [accepts, ht]
      | none =>
        refine ⟨fun hacc => absurd hacc ?_, fun _ => ?_⟩
        · simp [accepts, ht]
        · rw [step_type_eq, step_type_eq, ht]; rfl
    · cases hz : parseU32 v2 with
      | some z =>
        refine ⟨fun _ => ?_, fun hacc => absurd hacc ?_⟩
        · rw [step_version_eq, step_version_eq, step_version_eq, hz]; rfl
        · simp [accepts, hz]
      | none =>
        refine ⟨fun hacc => absurd hacc ?_, fun _ => ?_⟩
        · simp [accepts, hz]
        · rw [step_version_eq, step_version_eq, hz]; rfl
    · exact ⟨fun _ => rfl, fun hacc => by simp [accepts] at hacc⟩
  · have h1 : n ≠ "bounds" := fun he => hmem (by rw [he]; simp [recognizedKeys])
    have h2 : n ≠ "center" := fun he => hmem (by rw [he]; simp [recognizedKeys])
    have h3 : n ≠ "minzoom" := fun he => hmem (by rw [he]; simp [recognizedKeys])
    have h4 : n ≠ "maxzoom" := fun he => hmem (by rw [he]; simp [recognizedKeys])
    have h5 : n ≠ "type" := fun he => hmem (by rw [he]; simp [recognizedKeys])
    have h6 : n ≠ "version" := fun he => hmem (by rw [he]; simp [recognizedKeys])
    constructor
    · intro _
      rw [step_custom_eq E st n v1 hmem]
      rw [step_custom_eq E _ n v2 hmem, step_custom_eq E st n v2 hmem]
      dsimp only
      rw [insertKV_insertKV]
    · intro hacc
      rw [accepts, if_neg h1, if_neg h2, if_neg h3, if_neg h4, if_neg h5, if_neg h6] at hacc
      cases hacc

/-- C5 witness: two well-formed `version` rows — the later one wins. -/
theorem step_last_accepted_witness :
    step natExtern (step natExtern (initState natExtern) ("version", "1")) ("version", "2")
      = step natExtern (initState natExtern) ("version", "2") :=
  (step_last_accepted natExtern (initState natExtern) "version" "1" "2").1 (by decide)

/-- C5 counterexample: with rows `version=1` then `version=x`, the decoded
`version` is `some 1` — the malformed last occurrence does NOT overwrite
the earlier parsed value, so decoding the pair differs from decoding the
last row alone. -/
theorem step_last_accepted_counterexample :
    (read_metadata natExtern [("version", "1"), ("version", "x")]).map (fun m => m.version)
      ≠ (read_metadata natExtern [("version", "x")]).map (fun m => m.version) := by
  intro h
  rw [show (read_metadata natExtern [("version", "1"), ("version", "x")]).map
        (fun m => m.version) = .ok (some 1) from rfl,
      show (read_metadata natExtern [("version", "x")]).map (fun m => m.version)
        = .ok (none : Option Nat) from rfl] at h
  simp at h

/-- C1 counterexample: for `format = Other("pbf")` the emitted rows decode
with a hard error (format row `pbf` without a `json` row), and for
`format = Other("jpg")` they decode to the fixed `Jpg` variant — in
neither case is the original record reproduced. -/
theorem metadata_roundtrip_counterexample :
    (read_metadata natExtern (write_metadata natExtern { format := .Other "pbf" })
      ≠ .ok ({ format := .Other "pbf" } : Metadata natExtern))
    ∧ (read_metadata natExtern (write_metadata natExtern { format := .Other "jpg" })
      ≠ .ok ({ format := .Other "jpg" } : Metadata natExtern)) := by
  constructor
  · intro h
    rw [show read_metadata natExtern (write_metadata natExtern { format := .Other "pbf" })
          = (.error () : Except Unit (Metadata natExtern)) from rfl] at h
    exact Except.noConfusion h
  · intro h
    rw [show read_metadata natExtern (write_metadata natExtern { format := .Other "jpg" })
          = (.ok { format := .Jpg } : Except Unit (Metadata natExtern)) from rfl] at h
    injection h with h2
    have h3 := congrArg (fun md => md.format) h2
    exact FileFormat.noConfusion h3

/-- C1 witness: a fully populated record (vector-tile format, bounds,
center, zoom range, attribution, description, type, version, and a custom
entry) round-trips with `custom` emptied. -/
theorem metadata_roundtrip_witness :
    read_metadata natExtern (write_metadata natExtern
      { name := "example", format := .Pbf (), bounds := some ((1, 4), (3, 2)),
        center := some ((5, 6), 7), zoom_range := some (0, 14),
        attribution := some "attr", description := some "desc",
        type' := some .Overlay, version := some 2, custom := [("k", "v")] })
      = .ok { name := "example", format := .Pbf (), bounds := some ((1, 4), (3, 2)),
              center := some ((5, 6), 7), zoom_range := some (0, 14),
              attribution := some "attr", description := some "desc",
              type' := some .Overlay, version := some 2, custom := [] } :=
  write_read_metadata_roundtrip natExtern _
    (fun _ => rfl) parseNat_natToString natToString_no_comma (fun _ => rfl) (fun _ => rfl)
    (by intro p hp; simp at hp; subst hp; decide)
    (by intro c hc; simp at hc; subst hc; decide)
    (by intro n hn; simp at hn; subst hn; decide)
    (fun s h => FileFormat.noConfusion h)

theorem optRow_mem_key {key : String} {o : Option String} {p : String × String}
    (h : p ∈ optRow key o) : p.1 = key := by
  cases o with
  | none => cases h
  | some v =>
    have := List.mem_singleton.mp h
    rw [this]

theorem zoomRows_mem_key {o : Option (Nat × Nat)} {p : String × String}
    (h : p ∈ (match o with
      | some zr => [("minzoom", natToString zr.1), ("maxzoom", natToString zr.2)]
      | none => ([] : List (String × String)))) :
    p.1 = "minzoom" ∨ p.1 = "maxzoom" := by
  cases o with
  | none => cases h
  | some zr =>
    rcases List.mem_cons.mp h with h1 | h2
    · left; rw [h1]
    · right; rw [List.mem_singleton.mp h2]

theorem jsonRows_mem {E : ExternModel} {f : FileFormat E} {p : String × String}
    (h : p ∈ jsonRows E f) :
    ∃ mvt, f = FileFormat.Pbf mvt ∧ p = ("json", E.serializeMvt mvt) := by
  cases f with
  | Pbf mvt => exact ⟨mvt, rfl, List.mem_singleton.mp h⟩
  | Jpg => cases h
  | Png => cases h
  | Webp => cases h
  | Other s => cases h

/-- C8: for every metadata record whose format is not the vector-tile
variant, `write_metadata` emits no `json` row; and for the vector-tile
variant the emitted rows start `name`, then `json` (the serialized
sidecar), then `format` — the sidecar row precedes the format row. -/
theorem write_metadata_json_row (E : ExternModel) (m : Metadata E) :
    ((∀ mvt, m.format ≠ .Pbf mvt) → ∀ v, ("json", v) ∉ write_metadata E m)
    ∧ (∀ mvt, m.format = .Pbf mvt →
        ∃ l, write_metadata E m
          = ("name", m.name) :: ("json", E.serializeMvt mvt) :: ("format", "pbf") :: l) := by
  constructor
  · intro hnp v hmem
    unfold write_metadata at hmem
    simp only [List.mem_append] at hmem
    rcases hmem with ((((((((h | h) | h) | h) | h) | h) | h) | h) | h) | h
    · simp at h
    · obtain ⟨mvt, hfmt, _⟩ := jsonRows_mem h
      exact hnp mvt hfmt
    · simp at h
    · have h1 := optRow_mem_key h; simp at h1
    · have h1 := optRow_mem_key h; simp at h1
    · rcases zoomRows_mem_key h with h1 | h1 <;> simp at h1
    · have h1 := optRow_mem_key h; simp at h1
    · have h1 := optRow_mem_key h; simp at h1
    · have h1 := optRow_mem_key h; simp at h1
    · have h1 := optRow_mem_key h; simp at h1
  · intro mvt hfmt
    refine ⟨optRow "bounds" (m.bounds.map (boundsValue E))
      ++ optRow "center" (m.center.map (centerValue E))
      ++ (match m.zoom_range with
          | some zr => [("minzoom", natToString zr.1), ("maxzoom", natToString zr.2)]
          | none => [])
      ++ optRow "attribution" m.attribution
      ++ optRow "description" m.description
      ++ optRow "type" (m.type'.map Type'.intoString)
      ++ optRow "version" (m.version.map natToString), ?_⟩
    unfold write_metadata
    rw [hfmt]
    simp [jsonRows, FileFormat.intoString]

/-- C8 witness: a concrete vector-tile record — `json` emitted right
before `format`. -/
theorem write_metadata_json_row_witness :
    ∃ l, write_metadata natExtern { name := "n", format := .Pbf () }
      = ("name", "n") :: ("json", "mvt") :: ("format", "pbf") :: l :=
  (write_metadata_json_row natExtern { name := "n", format := .Pbf () }).2 () rfl

/-- C3: on a database whose tables were created by `create_grid_tables`,
`read_grid_data` always fails with a no-such-column error — its query
references a column `key` while the table declares `key_name` — both
after a `write_grid_data` of the same tile/key and for a never-written
key (where the claim expects `none`). -/
theorem grid_data_read_after_write_fails :
    (match write_grid_data create_grid_tables ⟨1, 2, 3⟩ "k" "data" with
     | .ok db => read_grid_data db ⟨1, 2, 3⟩ "k"
     | .error e => .error e) = .error .noSuchColumn
    ∧ read_grid_data create_grid_tables ⟨1, 2, 3⟩ "nope" = .error .noSuchColumn :=
  ⟨rfl, rfl⟩

/-- C9: the `VectorLayer` with id `"test"`, empty fields, empty
description and absent zoom bounds serializes to exactly
`{"id":"test","fields":{}}` — the empty description and the absent
optional fields are omitted entirely. -/
theorem vector_layer_minimal_json :
    VectorLayer.toJson
      { id := "test", fields := [], description := "", minzoom := none, maxzoom := none }
      = "\x7b\"id\":\"test\",\"fields\":\x7b\x7d\x7d" := rfl

end RosmMbtiles
